import Mathlib

set_option maxRecDepth 8000

/-!
Verification development for the Clock repository's Si3 simulation core:
the recurring-event scheduler (`Si3Sim`), its configuration model
(`Config`, `MeasureEvent`), the temporal value model (`DateTime`, the
time-of-day type, the historical `Time` instant type with its ISO-8601
parser and printer), and the high-precision decimal drift computation.

Modelling conventions:
* An instant (`misc_lib::DateTime`, a boost `ptime`) is embedded as an
  integer count of microseconds since 1400-01-01T00:00:00 (the lower end
  of boost's Gregorian range), so every boost-representable instant is a
  nonnegative value.  boost ptime has microsecond resolution.
* A time-of-day (the `misc_lib::Time` value used by the scheduler as a
  duration since midnight) is embedded as an integer microsecond count.
  Modelled from the spec: the time-of-day type itself is not present
  under src/ (only the historical point-in-time revision of time.hpp
  is); per the spec it is a duration since midnight with the usual
  total order, which is what this embedding gives.
* The high-precision decimal (`misc_lib::Quad`, boost
  `cpp_bin_float_quad`) is embedded as a binary floating-point value
  with a 113-bit significand: an integer mantissa/exponent pair whose
  arithmetic (add, multiply, divide) and decimal conversions are
  correctly rounded to nearest, ties to even, matching cpp_bin_float's
  documented behaviour.  The exponent is unbounded in the model;
  cpp_bin_float_quad's exponent range (roughly 10^-4932..10^4932) is
  never approached by the scheduler's values.
* Calendar functions (boost's `day_of_week`, `day`, `day_of_year`,
  `modjulian_day`) are external-library calls; they are modelled by a
  standard proleptic-Gregorian decomposition (era / century / quadrennium
  / year), which computes the same calendar functions boost computes.
-/

/-- Number of microseconds in one day. -/
def usPerDay : Int := 86400000000

/-- Fuel-indexed bit-length helper (structural, so it evaluates by
kernel reduction). -/
def bitLenAux : Nat → Nat → Nat
  | 0, _ => 0
  | fuel + 1, n => if n = 0 then 0 else bitLenAux fuel (n / 2) + 1

/-- Bit length of a natural number; 400 bits of fuel covers every
intermediate value of the 113-bit arithmetic below (the widest are the
240-bit-scaled division numerators). -/
def bitLen (n : Nat) : Nat := bitLenAux 400 n

/-- Models `misc_lib::Quad` (quad.hpp): boost
`cpp_bin_float_quad`, a binary floating-point number with a 113-bit
significand.  The represented value is `m * 2^e`. -/
structure Quad where
  m : Int
  e : Int
deriving DecidableEq, Repr

/-- Round `m * 2^e` to 113 significant bits, to nearest, ties to even
(the rounding cpp_bin_float applies to every operation result). -/
def roundToPrec (m : Int) (e : Int) : Quad :=
  if m = 0 then ⟨0, 0⟩
  else if bitLen m.natAbs ≤ 113 then ⟨m, e⟩
  else
    let sh := bitLen m.natAbs - 113
    let q := m / ((2 ^ sh : Nat) : Int)
    let r := m % ((2 ^ sh : Nat) : Int)
    let half := ((2 ^ (sh - 1) : Nat) : Int)
    let q2 := if half < r then q + 1
      else if r < half then q
      else if q % 2 = 0 then q else q + 1
    if q2.natAbs = 2 ^ 113 then ⟨q2 / 2, e + sh + 1⟩ else ⟨q2, e + sh⟩

/-- Models conversion of an integer to `Quad` (exact whenever the
integer fits in 113 bits, which covers every integer the scheduler
converts). -/
def Quad.ofInt (n : Int) : Quad := roundToPrec n 0

/-- Models `Quad` multiplication: exact product, then correctly
rounded. -/
def Quad.mul (a b : Quad) : Quad := roundToPrec (a.m * b.m) (a.e + b.e)

/-- Models `Quad` addition: exact exponent-aligned sum, then correctly
rounded. -/
def Quad.add (a b : Quad) : Quad :=
  if a.m = 0 then b
  else if b.m = 0 then a
  else if a.e ≤ b.e then
    roundToPrec (a.m + b.m * ((2 ^ (b.e - a.e).toNat : Nat) : Int)) a.e
  else roundToPrec (a.m * ((2 ^ (a.e - b.e).toNat : Nat) : Int) + b.m) b.e

/-- Models `Quad` division, correctly rounded to nearest, ties to even:
the magnitude quotient is computed with 240 guard bits and rounded with
a sticky bit.  Division by zero (which boost turns into an infinity) is
modelled as zero; no claim exercises it. -/
def Quad.div (a b : Quad) : Quad :=
  if a.m = 0 ∨ b.m = 0 then ⟨0, 0⟩
  else
    let na := a.m.natAbs * 2 ^ 240
    let nb := b.m.natAbs
    let q := na / nb
    let r := na % nb
    let sh := bitLen q - 113
    let qh := q / 2 ^ sh
    let rem := q % 2 ^ sh
    let half := 2 ^ (sh - 1)
    let up : Bool := decide (half < rem)
      || (decide (rem = half) && (decide (r ≠ 0) || decide (qh % 2 = 1)))
    let q3 := qh + (if up then 1 else 0)
    let neg : Bool := decide (a.m < 0) != decide (b.m < 0)
    let e2 := a.e - b.e - 240 + sh
    let q4 : Int := if neg then -(q3 : Int) else (q3 : Int)
    if q3 = 2 ^ 113 then ⟨q4 / 2, e2 + 1⟩ else ⟨q4, e2⟩

/-- Models `misc_lib::asQuad` (quad.cpp) on a plain decimal literal
`n / d` (with `d` a power of ten): the conversion of the decimal string
to cpp_bin_float, correctly rounded. -/
def asQuadDec (n : Int) (d : Nat) : Quad := Quad.div (Quad.ofInt n) (Quad.ofInt d)

/-- Whether the value `m * 2^e` of a `Quad` equals the exact rational
`n / d` (with `d` positive), expressed over integers. -/
def Quad.valueEq (q : Quad) (n : Int) (d : Nat) : Bool :=
  if 0 ≤ q.e then decide (q.m * ((2 ^ q.e.toNat : Nat) : Int) * d = n)
  else decide (q.m * d = n * ((2 ^ (-q.e).toNat : Nat) : Int))

namespace DateTime

/-- Time-of-day of an instant, in microseconds since midnight: models
boost `ptime::time_of_day()` (always in `[0, usPerDay)`). -/
def timeOfDay (t : Int) : Int := t % usPerDay

/-- Models `DateTime::addDays` (date_time.hpp): shifts by `days * 24h`. -/
def addDays (t : Int) (days : Int) : Int := t + days * usPerDay

/-- Models `DateTime::setTime` (date_time.hpp): `time_point_ +=
time.toBoostDuration() - time_point_.time_of_day()`, i.e. replace the
time-of-day component keeping the date. -/
def setTime (t : Int) (tod : Int) : Int := t - t % usPerDay + tod

/-- Models `DateTime::operator+=(double seconds)` for a whole number of
seconds (the generator adds `event.interval_seconds`, an unsigned int):
advance by `seconds * 1e6` microseconds. -/
def addSeconds (t : Int) (s : Nat) : Int := t + (s : Int) * 1000000

/-- Models `DateTime::secondsSince` (date_time.hpp): the nanosecond
difference (exactly convertible to `Quad`) divided by `Quad`'s exact
1e9, with correctly rounded binary128 division. -/
def secondsSince (t other : Int) : Quad :=
  Quad.div (Quad.ofInt ((t - other) * 1000)) (Quad.ofInt 1000000000)

/-- Day number of the instant: whole days since 1400-01-01. -/
def dayNumber (t : Int) : Nat := (t / usPerDay).toNat

/-- Days from 0000-03-01 (the era origin of the Gregorian decomposition)
to 1400-01-01. -/
def eraShift : Nat := 511280

/-- Day count of the instant since 0000-03-01. -/
def zDay (t : Int) : Nat := dayNumber t + eraShift

/-- Day-of-era: position within the 146097-day Gregorian cycle. -/
def doeOf (z : Nat) : Nat := z % 146097

/-- Century index (0..3) within the era; the last, short century absorbs
the era's closing leap day, hence the cap. -/
def cenOf (doe : Nat) : Nat := min (doe / 36524) 3

/-- Day within the century. -/
def docOf (doe : Nat) : Nat := doe - 36524 * cenOf doe

/-- Quadrennium index (0..24) within the century. -/
def quadOf (doc : Nat) : Nat := doc / 1461

/-- Day within the quadrennium. -/
def doqOf (doc : Nat) : Nat := doc % 1461

/-- Year index (0..3) within the quadrennium; the leap year is last. -/
def yrOf (doq : Nat) : Nat := min (doq / 365) 3

/-- Day-of-year in the March-based year: 0 = March 1, 365 = Feb 29. -/
def doyOf (doq : Nat) : Nat := doq - 365 * yrOf doq

/-- March-based day-of-year of the instant. -/
def marchDoy (t : Int) : Nat :=
  doyOf (doqOf (docOf (doeOf (zDay t))))

/-- March-based month index 0..11 (0 = March, 11 = February), recovered
from the day-of-year by the standard 153-day 5-month pattern. -/
def mpOf (doy : Nat) : Nat := (5 * doy + 2) / 153

/-- March-based year of the instant (year changes on March 1). -/
def marchYear (t : Int) : Nat :=
  let doe := doeOf (zDay t)
  let doc := docOf doe
  (zDay t / 146097) * 400 + cenOf doe * 100 + quadOf doc * 4
    + yrOf (doqOf doc)

/-- Gregorian leap-year predicate. -/
def isLeap (y : Nat) : Bool :=
  y % 4 = 0 && (y % 100 != 0 || y % 400 = 0)

/-- Models boost `date::day()`: the day of the month, 1..31. -/
def dayOfMonth (t : Int) : Nat :=
  marchDoy t - (153 * mpOf (marchDoy t) + 2) / 5 + 1

/-- Models boost `date::month()`: the calendar month, 1..12. -/
def monthOf (t : Int) : Nat :=
  let mp := mpOf (marchDoy t)
  if mp < 10 then mp + 3 else mp - 9

/-- Models boost `date::year()`: the calendar year. -/
def yearOf (t : Int) : Nat :=
  if mpOf (marchDoy t) < 10 then marchYear t else marchYear t + 1

/-- Models boost `date::day_of_year()`: 1 = January 1, up to 366. -/
def dayOfYear (t : Int) : Nat :=
  if mpOf (marchDoy t) < 10
  then marchDoy t + 60 + (if isLeap (yearOf t) then 1 else 0)
  else marchDoy t - 305

/-- Models boost `date::day_of_week()`: 0 = Sunday .. 6 = Saturday. -/
def dayOfWeek (t : Int) : Nat := (dayNumber t + 3) % 7

/-- Day number of 1858-11-17 (the Modified Julian Day epoch) counted
from 1400-01-01. -/
def mjdEpochDay : Nat := 167601

/-- Models `DateTime::mjd()` (date_time.hpp): boost `modjulian_day()`
(a signed day count since 1858-11-17) cast by the source to
`unsigned int`, i.e. reduced modulo 2^32.  For instants at or after the
MJD epoch this is exactly the Modified Julian Day. -/
def mjdCast (t : Int) : Nat :=
  (dayNumber t + 4294967296 - mjdEpochDay) % 4294967296

/-- Day count since 0000-03-01 of a civil date (inverse direction of the
decomposition above; used only to build concrete test instants). -/
def daysFromCivil (y m d : Nat) : Nat :=
  let ym := if m ≤ 2 then y - 1 else y
  let era := ym / 400
  let yoe := ym % 400
  let mp := if 2 < m then m - 3 else m + 9
  let doy := (153 * mp + 2) / 5 + d - 1
  era * 146097 + yoe * 365 + yoe / 4 - yoe / 100 + doy

/-- Build a concrete instant from a civil date and a time-of-day in
microseconds. -/
def mkInstant (y m d : Nat) (tod : Int) : Int :=
  ((daysFromCivil y m d - eraShift : Nat) : Int) * usPerDay + tod

end DateTime

-- Sanity checks of the calendar model against known dates.
example : DateTime.dayNumber (DateTime.mkInstant 2024 1 1 0) = 227911 := by decide
example : DateTime.dayOfWeek (DateTime.mkInstant 2024 1 1 0) = 1 := by decide
example : DateTime.dayOfMonth (DateTime.mkInstant 2024 1 1 0) = 1 := by decide
example : DateTime.monthOf (DateTime.mkInstant 2024 1 1 0) = 1 := by decide
example : DateTime.yearOf (DateTime.mkInstant 2024 1 1 0) = 2024 := by decide
example : DateTime.dayOfYear (DateTime.mkInstant 2024 1 1 0) = 1 := by decide
example : DateTime.dayOfYear (DateTime.mkInstant 2024 12 31 0) = 366 := by decide
example : DateTime.dayOfYear (DateTime.mkInstant 2023 12 31 0) = 365 := by decide
example : DateTime.dayOfMonth (DateTime.mkInstant 2024 2 29 0) = 29 := by decide
example : DateTime.monthOf (DateTime.mkInstant 2024 2 29 0) = 2 := by decide
example : DateTime.mjdCast (DateTime.mkInstant 2024 1 1 0) = 60310 := by decide
example : DateTime.dayOfWeek (DateTime.mkInstant 1858 11 17 0) = 3 := by decide
example : DateTime.mjdCast (DateTime.mkInstant 1858 11 17 0) = 0 := by decide

/-- Models `si3_sim::MeasureEvent` (config.hpp): a measurement window.
Time-of-day fields are microsecond durations since midnight. -/
structure MeasureEvent where
  day : Nat
  start_time : Int
  end_time : Int
  interval_seconds : Nat
deriving DecidableEq, Repr

/-- Models `operator<(MeasureEvent, MeasureEvent)` (config.hpp): compare
by day, then by start time. -/
def MeasureEvent.lt (a b : MeasureEvent) : Prop :=
  if a.day ≠ b.day then a.day < b.day else a.start_time < b.start_time

/-- The non-strict companion of `MeasureEvent.lt` (`¬ lt b a`), the order
a standard-library sort establishes. -/
def MeasureEvent.le (a b : MeasureEvent) : Prop :=
  if a.day = b.day then a.start_time ≤ b.start_time else a.day < b.day

instance : DecidableRel MeasureEvent.le := by
  intro a b
  unfold MeasureEvent.le
  infer_instance

instance : IsTotal MeasureEvent MeasureEvent.le := by
  constructor
  intro a b
  unfold MeasureEvent.le
  by_cases h : a.day = b.day
  · rw [if_pos h, if_pos h.symm]
    omega
  · rw [if_neg h, if_neg (Ne.symm h)]
    omega

instance : IsTrans MeasureEvent MeasureEvent.le := by
  constructor
  intro a b c hab hbc
  unfold MeasureEvent.le at *
  by_cases h1 : a.day = b.day
  · rw [if_pos h1] at hab
    by_cases h2 : b.day = c.day
    · rw [if_pos h2] at hbc
      rw [if_pos (h1.trans h2)]
      omega
    · rw [if_neg h2] at hbc
      have h3 : a.day ≠ c.day := by omega
      rw [if_neg h3]
      omega
  · rw [if_neg h1] at hab
    by_cases h2 : b.day = c.day
    · rw [if_pos h2] at hbc
      have h3 : a.day ≠ c.day := by omega
      rw [if_neg h3]
      omega
    · rw [if_neg h2] at hbc
      have h3 : a.day ≠ c.day := by omega
      rw [if_neg h3]
      omega

/-- Models `si3_sim::RunSchedule` (config.hpp). -/
inductive RunSchedule where
  | DAILY
  | WEEKLY
  | MONTHLY
  | MJD
  | YEARLY
deriving DecidableEq, Repr

/-- Models `si3_sim::Config` (config.hpp), restricted to the fields the
scheduler and generator read.  `start_frequency` and `drift_rate` are
the high-precision decimal coefficients (binary128 values). -/
structure Config where
  run_schedule : RunSchedule
  start_time : Int
  end_time : Int
  measurements : List MeasureEvent
  mjd_mod : Nat
  start_frequency : Quad
  drift_rate : Quad

/-- Models `Config::interval()` (config.hpp lines 153-167): the cycle
length in days of the configured recurrence. -/
def Config.interval (cfg : Config) : Nat :=
  match cfg.run_schedule with
  | RunSchedule.DAILY => 1
  | RunSchedule.WEEKLY => 7
  | RunSchedule.MONTHLY => 30
  | RunSchedule.YEARLY => 365
  | RunSchedule.MJD => cfg.mjd_mod

/-- Models `Config::sortMeasurementEvents()` (config.hpp): sort the
window list by (day, start_time).  `std::sort` is modelled by insertion
sort, which produces a sorted permutation. -/
def sortEvents (ms : List MeasureEvent) : List MeasureEvent :=
  List.insertionSort MeasureEvent.le ms

/-- The walk of `Config::validateMeasurementEvents` over the already
sorted list, carrying the previous element: checks `end > start` for
each window and no overlap between consecutive same-day windows. -/
def validateFrom (prev : MeasureEvent) : List MeasureEvent → Bool
  | [] => true
  | e :: rest =>
    if e.end_time ≤ e.start_time then false
    else if e.day = prev.day ∧ e.start_time < prev.end_time then false
    else validateFrom e rest

/-- The walk of `Config::validateMeasurementEvents` from the head of
the sorted list: the first window has no predecessor to overlap. -/
def validateHead : List MeasureEvent → Bool
  | [] => true
  | e :: rest =>
    if e.end_time ≤ e.start_time then false
    else validateFrom e rest

/-- Models `Config::validateMeasurementEvents()` (config.hpp lines
231-250): sorts the windows, then returns false if some window ends at
or before its start or two consecutive same-day windows overlap. -/
def validateMeasurementEvents (ms : List MeasureEvent) : Bool :=
  validateHead (sortEvents ms)

namespace Si3Sim

open DateTime

/-- Models `Si3Sim::scheduleDay()` (si3_sim.cpp lines 19-35): the
cursor's position within the configured recurrence cycle. -/
def scheduleDay (cfg : Config) (t : Int) : Nat :=
  match cfg.run_schedule with
  | RunSchedule.DAILY => 0
  | RunSchedule.WEEKLY => dayOfWeek t
  | RunSchedule.MONTHLY => dayOfMonth t
  | RunSchedule.YEARLY => dayOfYear t
  | RunSchedule.MJD => mjdCast t % cfg.interval

/-- The window predicate of `Si3Sim::nextMeasurementEvent` (si3_sim.cpp
lines 60-65): the window lies on a later cycle day, or on the current
cycle day with a start time at or after the cursor's time-of-day. -/
def eventAtOrAfter (cfg : Config) (t : Int) (ev : MeasureEvent) : Bool :=
  decide (scheduleDay cfg t < ev.day) ||
    (decide (ev.day = scheduleDay cfg t) && decide (timeOfDay t ≤ ev.start_time))

/-- Models `Si3Sim::nextMeasurementEvent()` (si3_sim.cpp lines 50-71):
`none` models the `No measurement events configured` exception;
otherwise the first window satisfying `eventAtOrAfter`, falling back to
the front of the list on wrap-around. -/
def nextMeasurementEvent (cfg : Config) (t : Int) : Option MeasureEvent :=
  match cfg.measurements with
  | [] => none
  | e :: rest => some (((e :: rest).find? (eventAtOrAfter cfg t)).getD e)

/-- Models the `while (day_diff < 0) day_diff += interval` loop of
`Si3Sim::nextStart` literally.  For `interval = 0` the C++ loop never
terminates on negative input; this model then returns the input
unchanged (the branch is unreachable for the positive cycle lengths the
claims assume). -/
def dayDiffLoop (L : Nat) (d : Int) : Int :=
  if h : 0 < L ∧ d < 0 then dayDiffLoop L (d + L) else d
termination_by (-d).toNat
decreasing_by
  omega

/-- Closed form of `dayDiffLoop`, used in the executable model (the loop
itself is defined by well-founded recursion and does not evaluate by
kernel reduction). -/
def dayDiffNorm (L : Nat) (d : Int) : Int :=
  if 0 < L ∧ d < 0 then d % (L : Int) else d

theorem dayDiffLoop_eq_norm (L : Nat) (d : Int) :
    dayDiffLoop L d = dayDiffNorm L d := by
  induction d using dayDiffLoop.induct L with
  | case1 d h ih =>
    rw [dayDiffLoop, dif_pos h, ih]
    unfold dayDiffNorm
    obtain ⟨hL, hd⟩ := h
    by_cases h2 : d + L < 0
    · rw [if_pos ⟨hL, h2⟩, if_pos ⟨hL, hd⟩]
      have h3 := Int.add_mul_emod_self_left d (L : Int) 1
      simpa using h3
    · rw [if_neg (by omega), if_pos ⟨hL, hd⟩]
      have h4 : d % (L : Int) = (d + L) % (L : Int) := by
        have h3 := Int.add_mul_emod_self_left d (L : Int) 1
        simpa using h3.symm
      rw [h4, Int.emod_eq_of_lt (by omega) (by omega)]
  | case2 d h =>
    rw [dayDiffLoop, dif_neg h]
    unfold dayDiffNorm
    rw [if_neg h]

/-- Models `Si3Sim::nextStart(MeasureEvent)` (si3_sim.cpp lines 73-86):
normalize the cycle-day difference, push a same-day window whose start
has already passed to the next cycle, then advance by that many days
and set the time-of-day to the window's start.  The day-difference loop
is used through its closed form (see `dayDiffLoop_eq_norm`). -/
def nextStart (cfg : Config) (t : Int) (ev : MeasureEvent) : Int :=
  setTime
    (addDays t
      (if dayDiffNorm cfg.interval ((ev.day : Int) - (scheduleDay cfg t : Int)) = 0
          ∧ ev.start_time < timeOfDay t
        then (cfg.interval : Int)
        else dayDiffNorm cfg.interval ((ev.day : Int) - (scheduleDay cfg t : Int))))
    ev.start_time

/-- One emitted data row: the cursor instant and the computed drift
value.  The rendering of the row (Unix-milliseconds vs simple string,
fixed-point digit count) is outside the model. -/
structure Row where
  time : Int
  value : Quad
deriving DecidableEq, Repr

/-- The drift-model value emitted at cursor `t` (si3_sim.cpp lines
101-103): `start_frequency + drift_rate * secondsSince(run_start)`,
each operation correctly rounded in binary128. -/
def sampleValue (cfg : Config) (t : Int) : Quad :=
  Quad.add cfg.start_frequency
    (Quad.mul cfg.drift_rate (secondsSince t cfg.start_time))

/-- Models the inner sampling loop of `Si3Sim::generateData` (si3_sim.cpp
lines 100-118): while the cursor's time-of-day is at or before the
window's end, emit a row and advance the cursor by the sampling
interval.  Fuel-indexed; `none` models non-termination within the given
fuel.  Returns the final cursor and the emitted rows. -/
def innerLoop (cfg : Config) (ev : MeasureEvent) :
    Nat → Int → Option (Int × List Row)
  | 0, _ => none
  | fuel + 1, t =>
    if timeOfDay t ≤ ev.end_time then
      match innerLoop cfg ev fuel (addSeconds t ev.interval_seconds) with
      | none => none
      | some (tfin, rows) => some (tfin, ⟨t, sampleValue cfg t⟩ :: rows)
    else some (t, [])

/-- Models the outer loop of `Si3Sim::generateData` (si3_sim.cpp lines
98-123): while the cursor is before the run end, run the inner sampling
loop, snap the cursor to the window's end, pick the next window and
jump to its next start. -/
def outerLoop (cfg : Config) (innerFuel : Nat) :
    Nat → MeasureEvent → Int → Option (List Row)
  | 0, _, _ => none
  | fuel + 1, ev, t =>
    if t < cfg.end_time then
      match innerLoop cfg ev innerFuel t with
      | none => none
      | some (t1, rows) =>
        match nextMeasurementEvent cfg (DateTime.setTime t1 ev.end_time) with
        | none => none
        | some ev2 =>
          match outerLoop cfg innerFuel fuel ev2
              (nextStart cfg (DateTime.setTime t1 ev.end_time) ev2) with
          | none => none
          | some rest => some (rows ++ rest)
    else some []

/-- Models `Si3Sim::generateData` (si3_sim.cpp lines 88-129), starting
from the cursor `current_time_` (initialized by the constructor to the
configured start time): pick the first window, jump to its start, then
loop.  Header lines and row formatting are outside the model. -/
def generateData (cfg : Config) (outerFuel innerFuel : Nat) :
    Option (List Row) :=
  match nextMeasurementEvent cfg cfg.start_time with
  | none => none
  | some ev =>
    outerLoop cfg innerFuel outerFuel ev (nextStart cfg cfg.start_time ev)

/-- Models constructing a `Si3Sim` from a configuration (which sorts the
window list, si3_sim.hpp constructor) and calling `generateData`. -/
def runSi3Sim (cfg : Config) (outerFuel innerFuel : Nat) :
    Option (List Row) :=
  generateData { cfg with measurements := sortEvents cfg.measurements }
    outerFuel innerFuel

end Si3Sim

/-! Concrete configurations used by the scenario claims. -/

/-- The instant 2024-01-01T00:00:00 (the concrete scenario's run start). -/
def t0C3 : Int := DateTime.mkInstant 2024 1 1 0

/-- The concrete scenario's single window: cycle day 0, 00:00:00 to
00:01:00, 30-second sampling interval. -/
def evC3 : MeasureEvent :=
  { day := 0, start_time := 0, end_time := 60000000, interval_seconds := 30 }

/-- The concrete scenario's configuration (spec section 8): Daily
recurrence, run 2024-01-01T00:00:00Z to 2024-01-01T00:02:00Z,
start frequency -2753484.340, drift rate 0.0002. -/
def cfgC3 : Config :=
  { run_schedule := RunSchedule.DAILY
    start_time := t0C3
    end_time := t0C3 + 120000000
    measurements := [evC3]
    mjd_mod := 1
    start_frequency := asQuadDec (-2753484340) 1000
    drift_rate := asQuadDec 2 10000 }


/-!
The historical `misc_lib::Time` instant type (time.hpp / time.cpp): its
ISO-8601 parser (`Time::fromISO`, a regex gate followed by boost's
`from_iso_extended_string`) and its printer (`Time::toString`).
Strings are embedded as character lists.
-/

/-- Numeric value of a digit character. -/
def digitVal (c : Char) : Nat := c.toNat - 48

/-- Consume exactly `n` digit characters, accumulating their value. -/
def takeFixedDigits (acc : Nat) : Nat → List Char → Option (Nat × List Char)
  | 0, cs => some (acc, cs)
  | _ + 1, [] => none
  | n + 1, c :: cs =>
    if c.isDigit then takeFixedDigits (acc * 10 + digitVal c) n cs else none

/-- Consume one expected literal character. -/
def expectChar (c : Char) : List Char → Option (List Char)
  | [] => none
  | x :: xs => if x = c then some xs else none

/-- Greedily consume up to `fuel` digit characters, returning how many
were consumed, their value, and the rest (models the greedy
`\d\x7b0,6\x7d` of the source regex; a digit left over afterwards makes
the subsequent suffix/end match fail, exactly as in the regex). -/
def takeFracDigits (cnt acc : Nat) : Nat → List Char → Nat × Nat × List Char
  | 0, cs => (cnt, acc, cs)
  | _ + 1, [] => (cnt, acc, [])
  | fuel + 1, c :: cs =>
    if c.isDigit then takeFracDigits (cnt + 1) (acc * 10 + digitVal c) fuel cs
    else (cnt, acc, c :: cs)

/-- The timezone suffix alternatives of the source regex:
`(Z|((\+|-)(\d\x7b2\x7d):(\d\x7b2\x7d)))?`. -/
inductive ZoneSuffix where
  | absent
  | zulu
  | withOffset (negative : Bool) (oh om : Nat)
deriving DecidableEq, Repr

/-- Parse the optional timezone suffix, requiring end of input after. -/
def parseZoneSuffix : List Char → Option ZoneSuffix
  | [] => some ZoneSuffix.absent
  | c :: cs =>
    if c = 'Z' then
      match cs with
      | [] => some ZoneSuffix.zulu
      | _ :: _ => none
    else if c = '+' ∨ c = '-' then
      match takeFixedDigits 0 2 cs with
      | none => none
      | some (oh, r1) =>
        match expectChar ':' r1 with
        | none => none
        | some r2 =>
          match takeFixedDigits 0 2 r2 with
          | none => none
          | some (om, r3) =>
            match r3 with
            | [] => some (ZoneSuffix.withOffset (c = '-') oh om)
            | _ :: _ => none
    else none

/-- The fields captured by the source regex of `Time::fromISO` /
`DateTime::fromISO`. -/
structure RawISO where
  y : Nat
  mo : Nat
  d : Nat
  h : Nat
  mi : Nat
  s : Nat
  dot : Bool
  fracCount : Nat
  fracVal : Nat
  suffix : ZoneSuffix
deriving DecidableEq, Repr

/-- Character-level model of the source regex (time.cpp line 23,
date_time.cpp line 66):
`^(\d\x7b4\x7d-\d\x7b2\x7d-\d\x7b2\x7dT\d\x7b2\x7d:\d\x7b2\x7d:\d\x7b2\x7d\.?\d\x7b0,6\x7d)(Z|((\+|-)(\d\x7b2\x7d):(\d\x7b2\x7d)))?$`.
Note the dot and the fractional digits are independently optional: the
regex accepts trailing digits after the seconds field with no dot. -/
def parseISO (cs : List Char) : Option RawISO :=
  match takeFixedDigits 0 4 cs with
  | none => none
  | some (y, r1) =>
    match expectChar '-' r1 with
    | none => none
    | some r2 =>
      match takeFixedDigits 0 2 r2 with
      | none => none
      | some (mo, r3) =>
        match expectChar '-' r3 with
        | none => none
        | some r4 =>
          match takeFixedDigits 0 2 r4 with
          | none => none
          | some (d, r5) =>
            match expectChar 'T' r5 with
            | none => none
            | some r6 =>
              match takeFixedDigits 0 2 r6 with
              | none => none
              | some (h, r7) =>
                match expectChar ':' r7 with
                | none => none
                | some r8 =>
                  match takeFixedDigits 0 2 r8 with
                  | none => none
                  | some (mi, r9) =>
                    match expectChar ':' r9 with
                    | none => none
                    | some r10 =>
                      match takeFixedDigits 0 2 r10 with
                      | none => none
                      | some (s, r11) =>
                        let dotSplit :=
                          match r11 with
                          | c :: rest =>
                            if c = '.' then (true, rest) else (false, c :: rest)
                          | [] => (false, ([] : List Char))
                        let fracSplit := takeFracDigits 0 0 6 dotSplit.2
                        match parseZoneSuffix fracSplit.2.2 with
                        | none => none
                        | some suf =>
                          some { y := y, mo := mo, d := d, h := h, mi := mi,
                                 s := s, dot := dotSplit.1,
                                 fracCount := fracSplit.1,
                                 fracVal := fracSplit.2.1, suffix := suf }

/-- Whether the source regex accepts the string (i.e. `fromISO` gets
past its `Invalid ISO string format` gate). -/
def isoRegexAccepts (cs : List Char) : Bool := (parseISO cs).isSome

/-- Modelled from the spec: the grammar stated by the specification and
by the comment above the source regex —
`YYYY-MM-DDTHH:MM:SS[.fractional_seconds][Z|+HH:MM|-HH:MM]` — in which
fractional digits may appear only after a dot.  Differs from
`isoRegexAccepts` exactly on strings with fraction digits but no dot. -/
def specISOAccepts (cs : List Char) : Bool :=
  match parseISO cs with
  | none => false
  | some r => r.dot || r.fracCount = 0

/-- Models `Time::TimeZone` (time.hpp). -/
inductive TimeZone where
  | UTC
  | LOCAL
  | OFFSET
deriving DecidableEq, Repr

/-- Models the historical `misc_lib::Time` instant type (time.hpp): a
date-time value (microsecond fraction) plus a timezone tag and offset
fields. -/
structure Time where
  y : Nat
  mo : Nat
  d : Nat
  h : Nat
  mi : Nat
  s : Nat
  frac : Nat
  time_zone : TimeZone
  offset_negative : Bool
  offset_h : Nat
  offset_m : Nat
deriving DecidableEq, Repr

/-- Days in a month of the proleptic Gregorian calendar. -/
def daysInMonth (y m : Nat) : Nat :=
  if m = 2 then 28 + (if DateTime.isLeap y then 1 else 0)
  else if m = 4 ∨ m = 6 ∨ m = 9 ∨ m = 11 then 30
  else 31

/-- Models `Time::fromISO` (time.cpp lines 12-46): the regex gate
followed by boost `from_iso_extended_string` on the first capture group
and the zone-tag dispatch on the suffix.  `none` models a thrown
exception.  The boost parse is modelled on canonical capture groups
(valid calendar fields, fraction digits preceded by a dot); fraction
digits are scaled to microseconds as boost does. -/
def Time.fromISO (cs : List Char) : Option Time :=
  match parseISO cs with
  | none => none
  | some r =>
    if 1 ≤ r.mo ∧ r.mo ≤ 12 ∧ 1 ≤ r.d ∧ r.d ≤ daysInMonth r.y r.mo
        ∧ r.h ≤ 23 ∧ r.mi ≤ 59 ∧ r.s ≤ 59
        ∧ (r.dot = true ∨ r.fracCount = 0) then
      let base : Time :=
        { y := r.y, mo := r.mo, d := r.d, h := r.h, mi := r.mi, s := r.s,
          frac := r.fracVal * 10 ^ (6 - r.fracCount),
          time_zone := TimeZone.LOCAL, offset_negative := false,
          offset_h := 0, offset_m := 0 }
      match r.suffix with
      | ZoneSuffix.absent => some base
      | ZoneSuffix.zulu => some { base with time_zone := TimeZone.UTC }
      | ZoneSuffix.withOffset neg oh om =>
        some { base with
                time_zone := TimeZone.OFFSET
                offset_negative := neg
                offset_h := oh
                offset_m := om }
    else none

/-- A digit character. -/
def digitChar (n : Nat) : Char := Char.ofNat (48 + n)

/-- Two-digit zero-padded rendering. -/
def pad2 (n : Nat) : List Char := [digitChar (n / 10 % 10), digitChar (n % 10)]

/-- Four-digit zero-padded rendering. -/
def pad4 (n : Nat) : List Char :=
  [digitChar (n / 1000 % 10), digitChar (n / 100 % 10),
    digitChar (n / 10 % 10), digitChar (n % 10)]

/-- Six-digit zero-padded rendering. -/
def pad6 (n : Nat) : List Char :=
  [digitChar (n / 100000 % 10), digitChar (n / 10000 % 10),
    digitChar (n / 1000 % 10), digitChar (n / 100 % 10),
    digitChar (n / 10 % 10), digitChar (n % 10)]

/-- Models `Time::toString` (time.hpp lines 70-88): boost
`to_iso_extended_string` (date, `T`, time, and a 6-digit fractional part
exactly when the fraction is nonzero) followed by the zone suffix the
source appends: `Z` for UTC, nothing for LOCAL, and for OFFSET the sign
and the two-digit hour — the source's `<< std::setw(2)` at the end of
the OFFSET branch has no operand, so neither a colon nor the minutes
are ever written. -/
def Time.toString (t : Time) : List Char :=
  pad4 t.y ++ '-' :: pad2 t.mo ++ '-' :: pad2 t.d ++ 'T' :: pad2 t.h
    ++ ':' :: pad2 t.mi ++ ':' :: pad2 t.s
    ++ (if t.frac = 0 then [] else '.' :: pad6 t.frac)
    ++ (match t.time_zone with
        | TimeZone.UTC => ['Z']
        | TimeZone.LOCAL => []
        | TimeZone.OFFSET =>
          (if t.offset_negative then '-' else '+') :: pad2 t.offset_h)

-- Sanity checks of the string model.
example :
    (Time.fromISO (("2024-05-23T12:00:12Z").data)).map Time.toString
      = some (("2024-05-23T12:00:12Z").data) := by decide
example :
    (Time.fromISO (("2024-05-23T12:00:12.123456").data)).map Time.toString
      = some (("2024-05-23T12:00:12.123456").data) := by decide
example : Time.fromISO (("2024-05-23T12:00:12+06:30:00").data) = none := by
  decide
example : Time.fromISO ([]) = none := by decide

/-- The window of the run-end overshoot scenario: cycle day 0, 00:00:00
to 00:01:30, 30-second sampling interval. -/
def evC10 : MeasureEvent :=
  { day := 0, start_time := 0, end_time := 90000000, interval_seconds := 30 }

/-- A configuration whose run end (2024-01-01T00:00:45) falls strictly
inside the single window's sampling span. -/
def cfgC10 : Config :=
  { run_schedule := RunSchedule.DAILY
    start_time := t0C3
    end_time := t0C3 + 45000000
    measurements := [evC10]
    mjd_mod := 1
    start_frequency := asQuadDec (-2753484340) 1000
    drift_rate := asQuadDec 2 10000 }

/-- C3 counterexample: running the concrete Daily scenario in the
binary128 model, the second emitted row's value is not exactly
-2753484.334: it is one unit in the last place (2^-91) above
`asQuad("-2753484.334")` and about 2.6e-28 away from the exact decimal,
because `fl(fl(-2753484.340) + fl(fl(0.0002)*30))` rounds to the
neighbouring binary128 value.  The run's three values are
listed explicitly; `Quad.valueEq` compares against the exact decimal. -/
theorem c3_second_value_not_exact :
    (Si3Sim.runSi3Sim cfgC3 4 8).map (List.map Si3Sim.Row.value)
        = some [⟨-6817297024062558755759267260997304, -91⟩,
          ⟨-6817297009207278284334703962207813, -91⟩,
          ⟨-6817296994351997812910140663418323, -91⟩]
      ∧ Quad.valueEq ⟨-6817297009207278284334703962207813, -91⟩
          (-2753484334) 1000 = false
      ∧ (⟨-6817297009207278284334703962207813, -91⟩ : Quad)
          ≠ asQuadDec (-2753484334) 1000 := by
  refine ⟨by decide, by decide, by decide⟩

/-- C3 (amended): the concrete Daily scenario (window 00:00:00 to
00:01:00, 30 s interval, run 2024-01-01T00:00:00Z to 00:02:00Z, start
frequency asQuad("-2753484.340"), drift rate asQuad("0.0002")) emits
exactly three rows, at 00:00:00, 00:00:30 and 00:01:00, and terminates;
the first row's value is exactly the configured start frequency (the
binary128 value of -2753484.340), the third is exactly
asQuad("-2753484.328"), and the second is exactly one unit in the last
place above asQuad("-2753484.334") — the correctly rounded binary128
sum differs from the decimal expectation by one ulp (about 2.6e-28). -/
theorem c3_concrete_daily_scenario :
    Si3Sim.runSi3Sim cfgC3 4 8 =
      some [{ time := t0C3, value := cfgC3.start_frequency },
        { time := t0C3 + 30000000,
          value := ⟨-6817297009207278284334703962207813, -91⟩ },
        { time := t0C3 + 60000000, value := asQuadDec (-2753484328) 1000 }]
      ∧ (⟨-6817297009207278284334703962207813, -91⟩ : Quad).m
          = (asQuadDec (-2753484334) 1000).m + 1
      ∧ (⟨-6817297009207278284334703962207813, -91⟩ : Quad).e
          = (asQuadDec (-2753484334) 1000).e
      ∧ Quad.valueEq cfgC3.start_frequency (-2753484340) 1000 = false := by
  refine ⟨by decide, by decide, by decide, by decide⟩

/-- C5 counterexample: in the very run of the concrete Daily scenario,
the inner sampling loop leaves the cursor at 00:01:30, and the
subsequent snap assignment `current_time_.setTime(event.end_time)`
moves it back to 00:01:00 — an assignment to the cursor that yields an
instant strictly below the cursor's previous value, refuting the claim
that every cursor assignment is non-decreasing. -/
theorem c5_snap_assignment_decreases_cursor :
    (Si3Sim.innerLoop cfgC3 evC3 8 t0C3).map Prod.fst
        = some (t0C3 + 90000000)
      ∧ DateTime.setTime (t0C3 + 90000000) evC3.end_time = t0C3 + 60000000
      ∧ t0C3 + 60000000 < t0C3 + 90000000 := by
  refine ⟨by decide, by decide, by decide⟩

/-- C6: evaluating the source `Time::fromISO` followed by
`Time::toString` at the parser-accepted input
`2024-05-23T12:00:12+06:30` yields `2024-05-23T12:00:12+06` — the
OFFSET branch of `toString` writes the sign and the two-digit hours but
never the colon or the minutes (its trailing `std::setw(2)` has no
operand) — so the round trip does not return the original string. -/
theorem c6_offset_round_trip_fails :
    (Time.fromISO (("2024-05-23T12:00:12+06:30").data)).map Time.toString
        = some (("2024-05-23T12:00:12+06").data)
      ∧ (Time.fromISO (("2024-05-23T12:00:12+06:30").data)).map Time.toString
        ≠ some (("2024-05-23T12:00:12+06:30").data) := by
  refine ⟨by decide, by decide⟩

/-- C7: the source regex accepts `2024-01-01T00:00:0012` — fractional
digits with no preceding dot — which the documented grammar
`YYYY-MM-DDTHH:MM:SS[.ffffff][Z|+HH:MM|-HH:MM]` (the code's own comment
and the claim) rejects, so the parser does not fail exactly on the
documented grammar's complement; the seconds-bearing offset suffix
`+06:30:00` and the empty string are rejected as the claim states. -/
theorem c7_regex_accepts_undocumented_fraction :
    isoRegexAccepts (("2024-01-01T00:00:0012").data) = true
      ∧ specISOAccepts (("2024-01-01T00:00:0012").data) = false
      ∧ isoRegexAccepts (("2024-05-23T12:00:12+06:30:00").data) = false
      ∧ isoRegexAccepts ([]) = false := by
  refine ⟨by decide, by decide, by decide, by decide⟩

/-- C10: the inner sampling loop of `generateData` does not read the
configured run end at all (its result is unchanged under any
replacement of `end_time`), and in the concrete configuration whose run
end 00:00:45 falls strictly inside the window's sampling span the run
emits rows at 00:00:00, 00:00:30, 00:01:00 and 00:01:30 — the last two
at or past the run end. -/
theorem c10_run_end_ignored_inside_window :
    (∀ (cfg : Config) (e : Int) (ev : MeasureEvent) (fuel : Nat) (t : Int),
        Si3Sim.innerLoop { cfg with end_time := e } ev fuel t
          = Si3Sim.innerLoop cfg ev fuel t)
      ∧ (Si3Sim.runSi3Sim cfgC10 4 12).map (List.map Si3Sim.Row.time)
        = some [t0C3, t0C3 + 30000000, t0C3 + 60000000, t0C3 + 90000000]
      ∧ cfgC10.end_time ≤ t0C3 + 60000000 := by
  refine ⟨?_, by decide, by decide⟩
  intro cfg e ev fuel
  induction fuel with
  | zero => intro t; rfl
  | succ n ih =>
    intro t
    show Si3Sim.innerLoop { cfg with end_time := e } ev (n + 1) t
      = Si3Sim.innerLoop cfg ev (n + 1) t
    rw [Si3Sim.innerLoop, Si3Sim.innerLoop, ih]
    rfl

/-- The day advance `nextStart` applies, phrased through the literal
`while`-loop model: the raw difference `event.day - scheduleDay()`,
normalized by `dayDiffLoop`, then forced to the full cycle length when
it is zero but the window's start has already passed today. -/
def Si3Sim.nextStartDayDiff (cfg : Config) (t : Int) (ev : MeasureEvent) : Int :=
  if Si3Sim.dayDiffLoop cfg.interval
        ((ev.day : Int) - (Si3Sim.scheduleDay cfg t : Int)) = 0
      ∧ ev.start_time < DateTime.timeOfDay t
  then (cfg.interval : Int)
  else Si3Sim.dayDiffLoop cfg.interval
        ((ev.day : Int) - (Si3Sim.scheduleDay cfg t : Int))

lemma dayDiffNorm_nonneg (L : Nat) (hL : 0 < L) (d : Int) :
    0 ≤ Si3Sim.dayDiffNorm L d := by
  unfold Si3Sim.dayDiffNorm
  split_ifs with h
  · exact Int.emod_nonneg d (by exact_mod_cast hL.ne')
  · omega

/-- C1: `nextStart` computes `dayDiff = window.cycle_day -
cyclePosition()`, brings it out of the negatives by repeatedly adding
the cycle length, forces it to the full cycle length when it is zero
but the cursor's time-of-day is strictly past the window's start, and
returns the cursor advanced by that many days with its time-of-day
replaced by the window's start; in the same-day-already-passed case the
result is exactly `cycleLength` days later than the naive same-day
computation. -/
theorem c1_nextStart_day_normalization (cfg : Config) (t : Int)
    (ev : MeasureEvent) (hL : 0 < cfg.interval) :
    (∀ d : Int, Si3Sim.dayDiffLoop cfg.interval d =
        if d < 0 then Si3Sim.dayDiffLoop cfg.interval (d + cfg.interval) else d)
      ∧ Si3Sim.nextStart cfg t ev =
        DateTime.setTime
          (DateTime.addDays t (Si3Sim.nextStartDayDiff cfg t ev)) ev.start_time
      ∧ 0 ≤ Si3Sim.nextStartDayDiff cfg t ev
      ∧ (Si3Sim.scheduleDay cfg t = ev.day →
          ev.start_time < DateTime.timeOfDay t →
          Si3Sim.nextStart cfg t ev =
            DateTime.addDays (DateTime.setTime t ev.start_time) cfg.interval) := by
  refine ⟨?_, ?_, ?_, ?_⟩
  · intro d
    by_cases hd : d < 0
    · rw [Si3Sim.dayDiffLoop, dif_pos ⟨hL, hd⟩, if_pos hd]
    · rw [Si3Sim.dayDiffLoop, dif_neg (by omega), if_neg hd]
  · unfold Si3Sim.nextStart Si3Sim.nextStartDayDiff
    rw [Si3Sim.dayDiffLoop_eq_norm]
  · unfold Si3Sim.nextStartDayDiff
    rw [Si3Sim.dayDiffLoop_eq_norm]
    split_ifs with h
    · omega
    · exact dayDiffNorm_nonneg cfg.interval hL _
  · intro hsd hpass
    have hd0 : (ev.day : Int) - (Si3Sim.scheduleDay cfg t : Int) = 0 := by
      rw [hsd]
      omega
    have h1 : Si3Sim.dayDiffNorm cfg.interval 0 = 0 := by
      unfold Si3Sim.dayDiffNorm
      norm_num
    unfold Si3Sim.nextStart
    rw [hd0, h1, if_pos ⟨rfl, hpass⟩]
    unfold DateTime.setTime DateTime.addDays usPerDay
    omega

/-- Witness for `c1_nextStart_day_normalization` at a concrete
configuration, cursor and window. -/
theorem c1_nextStart_day_normalization_witness :
    0 < cfgC3.interval ∧ 0 ≤ Si3Sim.nextStartDayDiff cfgC3 t0C3 evC3 :=
  ⟨by decide, (c1_nextStart_day_normalization cfgC3 t0C3 evC3 (by decide)).2.2.1⟩

lemma DateTime.marchDoy_le (t : Int) : DateTime.marchDoy t ≤ 365 := by
  unfold DateTime.marchDoy DateTime.doyOf DateTime.doqOf DateTime.docOf
    DateTime.doeOf DateTime.yrOf DateTime.cenOf
  omega

lemma DateTime.dayOfMonth_bounds (t : Int) :
    1 ≤ DateTime.dayOfMonth t ∧ DateTime.dayOfMonth t ≤ 31 := by
  have h := DateTime.marchDoy_le t
  unfold DateTime.dayOfMonth DateTime.mpOf
  omega

lemma DateTime.dayOfYear_bounds (t : Int) :
    1 ≤ DateTime.dayOfYear t ∧ DateTime.dayOfYear t ≤ 366 := by
  have h := DateTime.marchDoy_le t
  unfold DateTime.dayOfYear DateTime.mpOf
  split_ifs <;> omega

lemma DateTime.dayOfWeek_le (t : Int) : DateTime.dayOfWeek t ≤ 6 := by
  unfold DateTime.dayOfWeek
  omega

/-- C9: for every instant in the model's domain, the cycle position is
within the variant's bounds: Daily is always 0; Weekly is in [0,6];
Monthly in [1,31]; Yearly in [1,366]; and for ModuloDate the position
is the (unsigned-cast) Modified Julian Day modulo the configured
modulus — hence strictly below the modulus when it is positive — and
equals the true Modified Julian Day modulo the modulus for instants at
or after the MJD epoch (`dayNumber < 2^32` holds for every
boost-representable instant, whose dates end at year 9999). -/
theorem c9_cyclePosition_bounds (cfg : Config) (t : Int) (h0 : 0 ≤ t) :
    (cfg.run_schedule = RunSchedule.DAILY → Si3Sim.scheduleDay cfg t = 0)
      ∧ (cfg.run_schedule = RunSchedule.WEEKLY → Si3Sim.scheduleDay cfg t ≤ 6)
      ∧ (cfg.run_schedule = RunSchedule.MONTHLY →
          1 ≤ Si3Sim.scheduleDay cfg t ∧ Si3Sim.scheduleDay cfg t ≤ 31)
      ∧ (cfg.run_schedule = RunSchedule.YEARLY →
          1 ≤ Si3Sim.scheduleDay cfg t ∧ Si3Sim.scheduleDay cfg t ≤ 366)
      ∧ (cfg.run_schedule = RunSchedule.MJD →
          Si3Sim.scheduleDay cfg t = DateTime.mjdCast t % cfg.mjd_mod
            ∧ (0 < cfg.mjd_mod → Si3Sim.scheduleDay cfg t < cfg.mjd_mod)
            ∧ (DateTime.mjdEpochDay ≤ DateTime.dayNumber t →
                DateTime.dayNumber t < 4294967296 →
                Si3Sim.scheduleDay cfg t =
                  (DateTime.dayNumber t - DateTime.mjdEpochDay) % cfg.mjd_mod)) := by
  refine ⟨?_, ?_, ?_, ?_, ?_⟩ <;> intro h <;>
    unfold Si3Sim.scheduleDay Config.interval <;> rw [h]
  · exact DateTime.dayOfWeek_le t
  · exact DateTime.dayOfMonth_bounds t
  · exact DateTime.dayOfYear_bounds t
  · refine ⟨rfl, fun hm => Nat.mod_lt _ hm, fun hub hlt => ?_⟩
    have hc : DateTime.mjdCast t = DateTime.dayNumber t - DateTime.mjdEpochDay := by
      unfold DateTime.mjdCast DateTime.mjdEpochDay at *
      omega
    rw [hc]

/-- An MJD-schedule variant of the concrete configuration, modulus 10. -/
def cfgC9 : Config := { cfgC3 with run_schedule := RunSchedule.MJD, mjd_mod := 10 }

/-- Witness for `c9_cyclePosition_bounds` at a concrete MJD
configuration and instant past the MJD epoch. -/
theorem c9_cyclePosition_bounds_witness :
    0 ≤ t0C3
      ∧ cfgC9.run_schedule = RunSchedule.MJD
      ∧ Si3Sim.scheduleDay cfgC9 t0C3 = DateTime.mjdCast t0C3 % 10 :=
  ⟨by decide, rfl,
    ((c9_cyclePosition_bounds cfgC9 t0C3 (by decide)).2.2.2.2 rfl).1⟩

lemma find?_split {α : Type} (p : α → Bool) :
    ∀ (l : List α) (a : α), l.find? p = some a →
      ∃ l1 l2, l = l1 ++ a :: l2 ∧ p a = true ∧ ∀ x ∈ l1, p x = false
  | [], a, h => by simp at h
  | b :: bs, a, h => by
    by_cases hb : p b
    · rw [List.find?_cons_of_pos _ hb] at h
      refine ⟨[], bs, ?_, ?_, ?_⟩
      · simp_all
      · cases h
        exact hb
      · simp
    · rw [List.find?_cons_of_neg _ hb] at h
      obtain ⟨l1, l2, hsplit, hp, hl1⟩ := find?_split p bs a h
      refine ⟨b :: l1, l2, by rw [hsplit, List.cons_append], hp, ?_⟩
      intro x hx
      rcases List.mem_cons.mp hx with hx | hx
      · subst hx
        simpa using hb
      · exact hl1 x hx

/-- C2: for every cursor instant and non-empty window list held in
ascending (cycle_day, start) order, `nextMeasurementEvent` returns the
first window that lies at or after the cursor in the cycle (later
cycle day, or same cycle day with start at or after the cursor's
time-of-day); when no window satisfies the predicate it returns the
first window of the list rather than an error. -/
theorem c2_nextWindow_first_match_or_wrap (cfg : Config) (t : Int)
    (e0 : MeasureEvent) (es : List MeasureEvent)
    (hms : cfg.measurements = e0 :: es)
    (hsorted : List.Pairwise MeasureEvent.le cfg.measurements) :
    ∃ w, Si3Sim.nextMeasurementEvent cfg t = some w ∧
      ((∃ l1 l2, cfg.measurements = l1 ++ w :: l2
          ∧ Si3Sim.eventAtOrAfter cfg t w = true
          ∧ ∀ x ∈ l1, Si3Sim.eventAtOrAfter cfg t x = false)
        ∨ ((∀ x ∈ cfg.measurements, Si3Sim.eventAtOrAfter cfg t x = false)
            ∧ w = e0)) := by
  have hne : Si3Sim.nextMeasurementEvent cfg t =
      some (((e0 :: es).find? (Si3Sim.eventAtOrAfter cfg t)).getD e0) := by
    unfold Si3Sim.nextMeasurementEvent
    rw [hms]
  rw [hne, hms]
  cases hfind : (e0 :: es).find? (Si3Sim.eventAtOrAfter cfg t) with
  | none =>
    refine ⟨e0, by simp, Or.inr ⟨?_, rfl⟩⟩
    intro x hx
    have hx2 := List.find?_eq_none.mp hfind x hx
    simpa using hx2
  | some w =>
    refine ⟨w, by simp, Or.inl ?_⟩
    obtain ⟨l1, l2, hsplit, hp, hl1⟩ := find?_split _ _ _ hfind
    exact ⟨l1, l2, hsplit, hp, hl1⟩

/-- Witness for `c2_nextWindow_first_match_or_wrap` on the concrete
single-window configuration. -/
theorem c2_nextWindow_first_match_or_wrap_witness :
    cfgC3.measurements = evC3 :: []
      ∧ ∃ w, Si3Sim.nextMeasurementEvent cfgC3 t0C3 = some w ∧
        ((∃ l1 l2, cfgC3.measurements = l1 ++ w :: l2
            ∧ Si3Sim.eventAtOrAfter cfgC3 t0C3 w = true
            ∧ ∀ x ∈ l1, Si3Sim.eventAtOrAfter cfgC3 t0C3 x = false)
          ∨ ((∀ x ∈ cfgC3.measurements,
                Si3Sim.eventAtOrAfter cfgC3 t0C3 x = false)
              ∧ w = evC3)) :=
  ⟨rfl, c2_nextWindow_first_match_or_wrap cfgC3 t0C3 evC3 [] rfl
    (by constructor <;> simp)⟩

/-- Non-overlap of an ordered same-day pair: if two windows share a
cycle day, the earlier one ends at or before the later one starts. -/
def sameDayGap (a b : MeasureEvent) : Prop :=
  a.day = b.day → a.end_time ≤ b.start_time

/-- Auxiliary transitive relation bundling the sort order, the
well-formedness of the left window and the same-day gap. -/
def chainRel (a b : MeasureEvent) : Prop :=
  MeasureEvent.le a b ∧ a.start_time < a.end_time ∧ sameDayGap a b

lemma le_day_le {a b : MeasureEvent} (h : MeasureEvent.le a b) :
    a.day ≤ b.day := by
  unfold MeasureEvent.le at h
  split_ifs at h with hd
  · omega
  · omega

instance : IsTrans MeasureEvent chainRel := by
  constructor
  intro a b c hab hbc
  obtain ⟨hab1, hab2, hab3⟩ := hab
  obtain ⟨hbc1, hbc2, hbc3⟩ := hbc
  refine ⟨IsTrans.trans a b c hab1 hbc1, hab2, ?_⟩
  intro hac
  have hd1 := le_day_le hab1
  have hd2 := le_day_le hbc1
  have hub : a.day = b.day := by omega
  have hvc : b.day = c.day := by omega
  have g1 := hab3 hub
  have g2 := hbc3 hvc
  omega

lemma validateFrom_iff :
    ∀ (l : List MeasureEvent) (prev : MeasureEvent),
      validateFrom prev l = true ↔
        ((∀ e ∈ l, e.start_time < e.end_time)
          ∧ List.Chain' sameDayGap (prev :: l))
  | [], prev => by simp [validateFrom]
  | e :: rest, prev => by
    have ih := validateFrom_iff rest e
    unfold validateFrom
    split_ifs with h1 h2
    · simp only [false_iff]
      rintro ⟨hval, -⟩
      have := hval e (by simp)
      omega
    · simp only [false_iff]
      rintro ⟨-, hch⟩
      rw [List.chain'_cons] at hch
      have := hch.1 h2.1.symm
      omega
    · rw [ih]
      simp only [List.forall_mem_cons, List.chain'_cons]
      constructor
      · rintro ⟨hval, hch⟩
        refine ⟨⟨by omega, hval⟩, ?_, hch⟩
        intro hd
        omega
      · rintro ⟨⟨he, hval⟩, hgap, hch⟩
        exact ⟨hval, hch⟩

lemma validateMeasurementEvents_iff (ms : List MeasureEvent) :
    validateMeasurementEvents ms = true ↔
      ((∀ e ∈ sortEvents ms, e.start_time < e.end_time)
        ∧ List.Chain' sameDayGap (sortEvents ms)) := by
  unfold validateMeasurementEvents
  cases hs : sortEvents ms with
  | nil => simp [validateHead]
  | cons e rest =>
    simp only [validateHead]
    split_ifs with h1
    · simp only [false_iff]
      rintro ⟨hval, -⟩
      have := hval e (by simp)
      omega
    · rw [validateFrom_iff]
      simp only [List.forall_mem_cons, List.chain'_cons]
      constructor
      · rintro ⟨hval, hch⟩
        refine ⟨⟨by omega, hval⟩, hch⟩
      · rintro ⟨⟨he, hval⟩, hch⟩
        exact ⟨hval, hch⟩

lemma chain'_chainRel :
    ∀ (l : List MeasureEvent),
      (∀ e ∈ l, e.start_time < e.end_time) →
      List.Pairwise MeasureEvent.le l →
      List.Chain' sameDayGap l →
      List.Chain' chainRel l
  | [], _, _, _ => List.chain'_nil
  | [a], _, _, _ => List.chain'_singleton a
  | a :: b :: l, hval, hsort, hch => by
    rw [List.chain'_cons] at hch ⊢
    refine ⟨⟨?_, ?_, hch.1⟩,
      chain'_chainRel (b :: l) ?_ (List.pairwise_cons.mp hsort).2 hch.2⟩
    · exact (List.pairwise_cons.mp hsort).1 b (by simp)
    · exact hval a (by simp)
    · intro x hx
      exact hval x (by simp [hx])

/-- C8: `validateMeasurementEvents` sorts the windows by (cycle_day,
start) and returns true exactly when, in the sorted list, every window
ends strictly after it starts and the windows are pairwise
non-overlapping within each cycle day. -/
theorem c8_validate_iff_sorted_disjoint (ms : List MeasureEvent) :
    validateMeasurementEvents ms = true ↔
      ((∀ e ∈ sortEvents ms, e.start_time < e.end_time)
        ∧ List.Pairwise sameDayGap (sortEvents ms)) := by
  rw [validateMeasurementEvents_iff]
  constructor
  · rintro ⟨hval, hch⟩
    refine ⟨hval, ?_⟩
    have hsort : List.Pairwise MeasureEvent.le (sortEvents ms) :=
      List.sorted_insertionSort MeasureEvent.le ms
    have hR := chain'_chainRel (sortEvents ms) hval hsort hch
    have hpair : List.Pairwise chainRel (sortEvents ms) :=
      List.chain'_iff_pairwise.mp hR
    exact hpair.imp (fun h => h.2.2)
  · rintro ⟨hval, hpair⟩
    exact ⟨hval, hpair.chain'⟩

lemma addSeconds_ge (t : Int) (s : Nat) : t ≤ DateTime.addSeconds t s := by
  unfold DateTime.addSeconds
  omega

lemma setTime_mono {t u : Int} (e : Int) (h : t ≤ u) :
    DateTime.setTime t e ≤ DateTime.setTime u e := by
  unfold DateTime.setTime usPerDay
  omega

lemma le_setTime_of_tod_le {r t1 e : Int} (h1 : r ≤ t1)
    (h2 : DateTime.timeOfDay r ≤ e) : r ≤ DateTime.setTime t1 e := by
  unfold DateTime.setTime DateTime.timeOfDay usPerDay at *
  omega

lemma self_le_setTime {t e : Int} (h : DateTime.timeOfDay t ≤ e) :
    t ≤ DateTime.setTime t e := by
  unfold DateTime.setTime DateTime.timeOfDay usPerDay at *
  omega

lemma nextStart_ge (cfg : Config) (t : Int) (ev : MeasureEvent)
    (hL : 0 < cfg.interval) (hs : 0 ≤ ev.start_time) :
    t ≤ Si3Sim.nextStart cfg t ev := by
  have hnn := dayDiffNorm_nonneg cfg.interval hL
    ((ev.day : Int) - (Si3Sim.scheduleDay cfg t : Int))
  unfold Si3Sim.nextStart
  split_ifs with h
  · unfold DateTime.setTime DateTime.addDays usPerDay at *
    omega
  · unfold DateTime.setTime DateTime.addDays DateTime.timeOfDay usPerDay at *
    omega

lemma timeOfDay_nextStart (cfg : Config) (t : Int) (ev : MeasureEvent)
    (hs0 : 0 ≤ ev.start_time) (hs1 : ev.start_time < usPerDay) :
    DateTime.timeOfDay (Si3Sim.nextStart cfg t ev) = ev.start_time := by
  unfold Si3Sim.nextStart DateTime.setTime DateTime.addDays DateTime.timeOfDay
    usPerDay at *
  split_ifs <;> omega

lemma innerLoop_spec (cfg : Config) (ev : MeasureEvent) :
    ∀ (fuel : Nat) (t t1 : Int) (rows : List Si3Sim.Row),
      Si3Sim.innerLoop cfg ev fuel t = some (t1, rows) →
      t ≤ t1
        ∧ (∀ r ∈ rows, t ≤ r.time ∧ r.time ≤ t1
            ∧ DateTime.timeOfDay r.time ≤ ev.end_time)
        ∧ List.Chain' (fun a b => a.time ≤ b.time) rows
  | 0, t, t1, rows => by
    intro h
    exact absurd h (by simp [Si3Sim.innerLoop])
  | fuel + 1, t, t1, rows => by
    intro h
    rw [Si3Sim.innerLoop] at h
    split_ifs at h with hcond
    · cases hrec : Si3Sim.innerLoop cfg ev fuel
          (DateTime.addSeconds t ev.interval_seconds) with
      | none =>
        rw [hrec] at h
        simp at h
      | some pr =>
        obtain ⟨t2, rows2⟩ := pr
        rw [hrec] at h
        simp only [Option.some.injEq, Prod.mk.injEq] at h
        obtain ⟨ht1, hrows⟩ := h
        subst ht1
        subst hrows
        obtain ⟨iht, ihrows, ihch⟩ :=
          innerLoop_spec cfg ev fuel
            (DateTime.addSeconds t ev.interval_seconds) t2 rows2 hrec
        have hadv := addSeconds_ge t ev.interval_seconds
        refine ⟨by omega, ?_, ?_⟩
        · intro r hr
          rcases List.mem_cons.mp hr with hr | hr
          · subst hr
            refine ⟨le_refl t, ?_, hcond⟩
            show t ≤ t2
            omega
          · obtain ⟨h1, h2, h3⟩ := ihrows r hr
            exact ⟨by omega, h2, h3⟩
        · rw [List.chain'_cons']
          refine ⟨?_, ihch⟩
          intro y hy
          have hy2 := ihrows y (List.mem_of_mem_head? hy)
          show t ≤ y.time
          omega
    · simp only [Option.some.injEq, Prod.mk.injEq] at h
      obtain ⟨ht1, hrows⟩ := h
      subst ht1
      subst hrows
      exact ⟨le_refl t, by simp, by simp⟩

lemma nextMeasurementEvent_mem (cfg : Config) (t : Int) (w : MeasureEvent)
    (h : Si3Sim.nextMeasurementEvent cfg t = some w) :
    w ∈ cfg.measurements := by
  cases hms : cfg.measurements with
  | nil =>
    have hnone : Si3Sim.nextMeasurementEvent cfg t = none := by
      unfold Si3Sim.nextMeasurementEvent
      rw [hms]
    rw [hnone] at h
    cases h
  | cons e rest =>
    have hne : Si3Sim.nextMeasurementEvent cfg t =
        some (((e :: rest).find? (Si3Sim.eventAtOrAfter cfg t)).getD e) := by
      unfold Si3Sim.nextMeasurementEvent
      rw [hms]
    rw [hne] at h
    injection h with h
    cases hf : (e :: rest).find? (Si3Sim.eventAtOrAfter cfg t) with
    | none =>
      rw [hf] at h
      simp at h
      subst h
      simp
    | some u =>
      rw [hf] at h
      simp at h
      subst h
      exact List.mem_of_find?_eq_some hf

lemma outerLoop_spec (cfg : Config) (iF : Nat)
    (hL : 0 < cfg.interval)
    (hval : ∀ e ∈ cfg.measurements, e.start_time < e.end_time)
    (hwf : ∀ e ∈ cfg.measurements, 0 ≤ e.start_time ∧ e.end_time < usPerDay) :
    ∀ (fuel : Nat) (ev : MeasureEvent) (t : Int) (rows : List Si3Sim.Row),
      ev ∈ cfg.measurements →
      Si3Sim.outerLoop cfg iF fuel ev t = some rows →
      List.Chain' (fun a b => a.time ≤ b.time) rows
        ∧ ∀ r ∈ rows, min t (DateTime.setTime t ev.end_time) ≤ r.time
  | 0, ev, t, rows => by
    intro hm h
    exact absurd h (by simp [Si3Sim.outerLoop])
  | fuel + 1, ev, t, rows => by
    intro hm h
    rw [Si3Sim.outerLoop] at h
    split_ifs at h with hlt
    · cases hin : Si3Sim.innerLoop cfg ev iF t with
      | none =>
        rw [hin] at h
        simp at h
      | some pr =>
        obtain ⟨t1, rows1⟩ := pr
        rw [hin] at h
        simp only [] at h
        cases hnext : Si3Sim.nextMeasurementEvent cfg
            (DateTime.setTime t1 ev.end_time) with
        | none =>
          rw [hnext] at h
          simp at h
        | some ev2 =>
          rw [hnext] at h
          simp only [] at h
          cases hrest : Si3Sim.outerLoop cfg iF fuel ev2
              (Si3Sim.nextStart cfg (DateTime.setTime t1 ev.end_time) ev2) with
          | none =>
            rw [hrest] at h
            simp at h
          | some rest =>
            rw [hrest] at h
            simp only [Option.some.injEq] at h
            subst h
            obtain ⟨hti, hrowsi, hchi⟩ := innerLoop_spec cfg ev iF t t1 rows1 hin
            have hm2 := nextMeasurementEvent_mem cfg _ ev2 hnext
            have hev2v := hval ev2 hm2
            have hev2w := hwf ev2 hm2
            have h23 : DateTime.setTime t1 ev.end_time ≤
                Si3Sim.nextStart cfg (DateTime.setTime t1 ev.end_time) ev2 :=
              nextStart_ge cfg _ ev2 hL hev2w.1
            have htod3 : DateTime.timeOfDay
                (Si3Sim.nextStart cfg (DateTime.setTime t1 ev.end_time) ev2)
                  = ev2.start_time :=
              timeOfDay_nextStart cfg _ ev2 hev2w.1 (by omega)
            have hmin3 : min
                (Si3Sim.nextStart cfg (DateTime.setTime t1 ev.end_time) ev2)
                (DateTime.setTime
                  (Si3Sim.nextStart cfg (DateTime.setTime t1 ev.end_time) ev2)
                  ev2.end_time)
                = Si3Sim.nextStart cfg (DateTime.setTime t1 ev.end_time) ev2 := by
              have hst : Si3Sim.nextStart cfg (DateTime.setTime t1 ev.end_time) ev2
                  ≤ DateTime.setTime
                    (Si3Sim.nextStart cfg (DateTime.setTime t1 ev.end_time) ev2)
                    ev2.end_time :=
                self_le_setTime (by rw [htod3]; omega)
              exact min_eq_left hst
            obtain ⟨hchr, hrowsr⟩ :=
              outerLoop_spec cfg iF hL hval hwf fuel ev2
                (Si3Sim.nextStart cfg (DateTime.setTime t1 ev.end_time) ev2)
                rest hm2 hrest
            rw [hmin3] at hrowsr
            have hsnap : ∀ r ∈ rows1, r.time ≤ DateTime.setTime t1 ev.end_time :=
              fun r hr =>
                le_setTime_of_tod_le (hrowsi r hr).2.1 (hrowsi r hr).2.2
            constructor
            · refine List.Chain'.append hchi hchr ?_
              intro x hx y hy
              have hx2 := hsnap x (List.mem_of_mem_getLast? hx)
              have hy2 := hrowsr y (List.mem_of_mem_head? hy)
              show x.time ≤ y.time
              omega
            · intro r hr
              rcases List.mem_append.mp hr with hr | hr
              · have h1 := (hrowsi r hr).1
                have h2 : min t (DateTime.setTime t ev.end_time) ≤ t :=
                  min_le_left _ _
                omega
              · have hr3 := hrowsr r hr
                have hmono : DateTime.setTime t ev.end_time ≤
                    DateTime.setTime t1 ev.end_time :=
                  setTime_mono ev.end_time hti
                have h2 : min t (DateTime.setTime t ev.end_time) ≤
                    DateTime.setTime t ev.end_time := min_le_right _ _
                omega
    · simp only [Option.some.injEq] at h
      subst h
      exact ⟨by simp, by simp⟩

lemma generateData_eq (cfg : Config) (oF iF : Nat) (ev : MeasureEvent)
    (h : Si3Sim.nextMeasurementEvent cfg cfg.start_time = some ev) :
    Si3Sim.generateData cfg oF iF =
      Si3Sim.outerLoop cfg iF oF ev (Si3Sim.nextStart cfg cfg.start_time ev) := by
  unfold Si3Sim.generateData
  rw [h]

lemma generateData_none (cfg : Config) (oF iF : Nat)
    (h : Si3Sim.nextMeasurementEvent cfg cfg.start_time = none) :
    Si3Sim.generateData cfg oF iF = none := by
  unfold Si3Sim.generateData
  rw [h]

/-- C4: for a validated configuration (well-formed, pairwise disjoint
windows with time-of-day fields inside the day, a positive cycle length
and positive sampling intervals), the timestamps emitted by one full
`generateData` run (through the constructing `Si3Sim`, which sorts the
windows) are non-decreasing: each emitted timestamp is at or after the
one emitted before it. -/
theorem c4_emitted_timestamps_monotone (cfg : Config) (oF iF : Nat)
    (rows : List Si3Sim.Row)
    (hv : validateMeasurementEvents cfg.measurements = true)
    (hne : cfg.measurements ≠ [])
    (hL : 0 < cfg.interval)
    (hiv : ∀ e ∈ cfg.measurements, 0 < e.interval_seconds)
    (hwf : ∀ e ∈ cfg.measurements, 0 ≤ e.start_time ∧ e.end_time < usPerDay)
    (hrun : Si3Sim.runSi3Sim cfg oF iF = some rows) :
    List.Chain' (· ≤ ·) (rows.map Si3Sim.Row.time) := by
  unfold Si3Sim.runSi3Sim at hrun
  have hval2 : ∀ e ∈ ({ cfg with
      measurements := sortEvents cfg.measurements } : Config).measurements,
      e.start_time < e.end_time := by
    intro e he
    exact ((validateMeasurementEvents_iff cfg.measurements).mp hv).1 e he
  have hwf2 : ∀ e ∈ ({ cfg with
      measurements := sortEvents cfg.measurements } : Config).measurements,
      0 ≤ e.start_time ∧ e.end_time < usPerDay := by
    intro e he
    have hp := List.perm_insertionSort MeasureEvent.le cfg.measurements
    exact hwf e (hp.mem_iff.mp he)
  have hL2 : 0 < ({ cfg with
      measurements := sortEvents cfg.measurements } : Config).interval := hL
  cases hev0 : Si3Sim.nextMeasurementEvent
      { cfg with measurements := sortEvents cfg.measurements }
      ({ cfg with measurements := sortEvents cfg.measurements } : Config).start_time
      with
  | none =>
    rw [generateData_none _ _ _ hev0] at hrun
    cases hrun
  | some ev0 =>
    rw [generateData_eq _ _ _ _ hev0] at hrun
    have hm0 := nextMeasurementEvent_mem _ _ ev0 hev0
    obtain ⟨hch, -⟩ :=
      outerLoop_spec { cfg with measurements := sortEvents cfg.measurements }
        iF hL2 hval2 hwf2 oF ev0 _ rows hm0 hrun
    rw [List.chain'_map]
    exact hch

/-- Witness rows for the monotonicity claims: the trace of the concrete
Daily scenario with symbolic sample values. -/
def c4rows : List Si3Sim.Row :=
  [{ time := t0C3, value := Si3Sim.sampleValue cfgC3 t0C3 },
    { time := t0C3 + 30000000,
      value := Si3Sim.sampleValue cfgC3 (t0C3 + 30000000) },
    { time := t0C3 + 60000000,
      value := Si3Sim.sampleValue cfgC3 (t0C3 + 60000000) }]

/-- Witness for `c4_emitted_timestamps_monotone` on the concrete Daily
scenario run. -/
theorem c4_emitted_timestamps_monotone_witness :
    validateMeasurementEvents cfgC3.measurements = true
      ∧ List.Chain' (· ≤ ·) (c4rows.map Si3Sim.Row.time) :=
  ⟨by decide,
    c4_emitted_timestamps_monotone cfgC3 4 8 c4rows (by decide) (by decide)
      (by decide) (by decide) (by decide) (by rfl)⟩

/-- C5 (amended): over a `generateData` run, the sample-interval
advance of the cursor and the `nextStart` jump to the next window never
decrease the cursor (given a positive cycle length and a nonnegative
window start), and the snap of the cursor to the window's end — which
can decrease it — never moves it below any row emitted in that window,
so emitted timestamps remain monotone. -/
theorem c5_cursor_assignment_monotonicity :
    (∀ (t : Int) (s : Nat), t ≤ DateTime.addSeconds t s)
      ∧ (∀ (cfg : Config) (t : Int) (ev : MeasureEvent),
          0 < cfg.interval → 0 ≤ ev.start_time → t ≤ Si3Sim.nextStart cfg t ev)
      ∧ (∀ (cfg : Config) (ev : MeasureEvent) (fuel : Nat) (t t1 : Int)
            (rows : List Si3Sim.Row),
          Si3Sim.innerLoop cfg ev fuel t = some (t1, rows) →
          ∀ r ∈ rows, r.time ≤ DateTime.setTime t1 ev.end_time) := by
  refine ⟨?_, ?_, ?_⟩
  · intro t s
    exact addSeconds_ge t s
  · intro cfg t ev hL hs
    exact nextStart_ge cfg t ev hL hs
  · intro cfg ev fuel t t1 rows h r hr
    obtain ⟨-, hrows, -⟩ := innerLoop_spec cfg ev fuel t t1 rows h
    exact le_setTime_of_tod_le (hrows r hr).2.1 (hrows r hr).2.2

/-- Witness for `c5_cursor_assignment_monotonicity` at the concrete
scenario's first `nextStart` jump. -/
theorem c5_cursor_assignment_monotonicity_witness :
    0 < cfgC3.interval ∧ 0 ≤ evC3.start_time
      ∧ t0C3 ≤ Si3Sim.nextStart cfgC3 t0C3 evC3 :=
  ⟨by decide, by decide,
    c5_cursor_assignment_monotonicity.2.1 cfgC3 t0C3 evC3 (by decide) (by decide)⟩
